import Mathlib

/-!
Verification development for the leafpress Obsidian plugin
(binary lifecycle and subprocess orchestration subsystem).

The TypeScript sources are shallowly embedded as executable Lean
definitions.  JavaScript strings are modelled as `List Char` (UTF-16
code units; all strings involved are ASCII), numbers as `Int`/`Nat`,
`null`/`undefined` as `Option`, and thrown exceptions as `Except` or
`Option` results.  External effects (network fetches, the file system,
child processes, the SHA-256 digest of a byte buffer) are inputs to the
embedded functions; file-system side effects are recorded as explicit
action traces.
-/

namespace Leafpress

/-- JavaScript strings, modelled as lists of characters. -/
abbrev Chars := List Char

/-! ## JavaScript string and number primitives -/

/-- Numeric value of a list of decimal digit characters. -/
def digitsVal (ds : Chars) : Nat :=
  ds.foldl (fun a c => a * 10 + (c.toNat - 48)) 0

/-- JavaScript `parseInt(s, 10)`: skip leading whitespace, optional
sign, parse the longest prefix of decimal digits; `none` models `NaN`
(no digits found). -/
def jsParseInt (s : Chars) : Option Int :=
  match s.dropWhile Char.isWhitespace with
  | '-' :: r =>
    if (r.takeWhile Char.isDigit).isEmpty then none
    else some (-(digitsVal (r.takeWhile Char.isDigit) : Int))
  | '+' :: r =>
    if (r.takeWhile Char.isDigit).isEmpty then none
    else some (digitsVal (r.takeWhile Char.isDigit) : Int)
  | t =>
    if (t.takeWhile Char.isDigit).isEmpty then none
    else some (digitsVal (t.takeWhile Char.isDigit) : Int)

/-- Auxiliary splitter: JavaScript `s.split(sep)` for a one-character
separator, with an accumulator for the piece currently being read. -/
def splitSepAux (sep : Char) : Chars → Chars → List Chars
  | [], acc => [acc.reverse]
  | c :: cs, acc =>
    if c = sep then acc.reverse :: splitSepAux sep cs []
    else splitSepAux sep cs (c :: acc)

/-- JavaScript `s.split(sep)` for a one-character separator
(`"."`, `"-"`, `"\n"` in the sources). -/
def splitSep (sep : Char) (s : Chars) : List Chars :=
  splitSepAux sep s []

/-- JavaScript `s.trim()`. -/
def jsTrim (s : Chars) : Chars :=
  ((s.dropWhile Char.isWhitespace).reverse.dropWhile Char.isWhitespace).reverse

/-- JavaScript `s.split(/\s+/)` applied to an already trimmed string:
maximal whitespace runs separate the tokens.  (On the all-whitespace
string JavaScript yields `[""]` while this yields `[]`; both fail the
`parts.length >= 2` guard at the single use site.) -/
def splitWs (s : Chars) : List Chars :=
  (s.splitOnP Char.isWhitespace).filter (fun l => ¬ l.isEmpty)

/-- JavaScript `s.toLowerCase()` (ASCII, which covers every string the
plugin lower-cases: asset names and hex digests). -/
def lowerChars (s : Chars) : Chars := s.map Char.toLower

/-- JavaScript `s.includes(t)`: `t` occurs as a contiguous substring. -/
def containsChars (s t : Chars) : Bool :=
  s.tails.any (fun suf => t.isPrefixOf suf)

/-- JavaScript string comparison `a < b` (lexicographic on code units). -/
def charsLt : Chars → Chars → Bool
  | [], [] => false
  | [], _ :: _ => true
  | _ :: _, [] => false
  | a :: as, b :: bs => if a < b then true else if a = b then charsLt as bs else false

/-! ## Version comparator (`manager.ts`, `compareVersions`, lines 407-464) -/

/-- Result of the inner `parseVersion` helper of `compareVersions`:
`major`/`minor`/`patch` are `parseInt(p, 10) || 0` of the dotted base
components (`none` models the `undefined` produced by destructuring a
short array), `prerelease` is the text after the first `-` (or `""`). -/
structure ParsedVersion where
  major : Option Int
  minor : Option Int
  patch : Option Int
  prerelease : Chars
deriving DecidableEq

/-- JavaScript `v.replace(/^v/, "")`: strip one leading lowercase `v`. -/
def stripLeadingV : Chars → Chars
  | 'v' :: r => r
  | s => s

/-- The `parseVersion` closure inside `compareVersions`
(`manager.ts` lines 411-416). -/
def parseVersionChars (v : Chars) : ParsedVersion :=
  let cleanVersion := stripLeadingV v
  let parts := splitSep '-' cleanVersion
  let baseVersion := parts.headD []
  let prerelease := (parts[1]?).getD []
  let nums := (splitSep '.' baseVersion).map (fun p => ((jsParseInt p).getD 0 : Int))
  { major := nums[0]?, minor := nums[1]?, patch := nums[2]?, prerelease := prerelease }

/-- `parseVersion` on a `String` argument. -/
def parseVersion (v : String) : ParsedVersion := parseVersionChars v.data

/-- JavaScript `a !== b` on `number | undefined` operands (the parsed
components are never `NaN`, since `parseInt(p, 10) || 0` replaces `NaN`
by `0`). -/
def jsNeqNum (a b : Option Int) : Bool := a != b

/-- JavaScript `a > b` on `number | undefined` operands: any comparison
against `undefined` is false. -/
def jsGtNum : Option Int → Option Int → Bool
  | some x, some y => x > y
  | _, _ => false

/-- The pre-release identifier loop of `compareVersions`
(`manager.ts` lines 436-461): position-by-position comparison, shorter
list ranks lower, numeric identifiers compare numerically and sort
before non-numeric ones, non-numeric ones compare lexically. -/
def cmpPre : List Chars → List Chars → Int
  | [], [] => 0
  | [], _ :: _ => -1
  | _ :: _, [] => 1
  | a :: as, b :: bs =>
    match jsParseInt a, jsParseInt b with
    | some x, some y => if x ≠ y then (if x > y then 1 else -1) else cmpPre as bs
    | some _, none => -1
    | none, some _ => 1
    | none, none => if a ≠ b then (if charsLt b a then 1 else -1) else cmpPre as bs

/-- `compareVersions(v1, v2)` (`manager.ts` lines 407-464), on character
lists. -/
def compareVersionsChars (v1 v2 : Chars) : Int :=
  let p1 := parseVersionChars v1
  let p2 := parseVersionChars v2
  if jsNeqNum p1.major p2.major then (if jsGtNum p1.major p2.major then 1 else -1)
  else if jsNeqNum p1.minor p2.minor then (if jsGtNum p1.minor p2.minor then 1 else -1)
  else if jsNeqNum p1.patch p2.patch then (if jsGtNum p1.patch p2.patch then 1 else -1)
  else if p1.prerelease.isEmpty ∧ ¬ p2.prerelease.isEmpty then 1
  else if ¬ p1.prerelease.isEmpty ∧ p2.prerelease.isEmpty then -1
  else if p1.prerelease.isEmpty ∧ p2.prerelease.isEmpty then 0
  else cmpPre (splitSep '.' p1.prerelease) (splitSep '.' p2.prerelease)

/-- `compareVersions` on `String` arguments. -/
def compareVersions (v1 v2 : String) : Int :=
  compareVersionsChars v1.data v2.data

/-! ## Release data (`types.ts`) -/

/-- One downloadable asset of a GitHub release (`types.ts`,
`GitHubAsset`). -/
structure GitHubAsset where
  name : String
  browser_download_url : String
  size : Nat
deriving DecidableEq

/-- A GitHub release record (`types.ts`, `GitHubRelease`; the unused
`name` field is omitted). -/
structure GitHubRelease where
  tag_name : String
  assets : List GitHubAsset
deriving DecidableEq

/-- Outcome of one `requestUrl` call: the request either throws or
yields a response with a status and a body text. -/
inductive FetchOutcome where
  | thrown (msg : String)
  | response (status : Nat) (text : String)
deriving DecidableEq

/-! ## Asset-name glob matching (`manager.ts`, `matchAssetName`, lines 93-99) -/

/-- The regex built by `matchAssetName` — the pattern with dots escaped,
`*` turned into `.*`, anchored on both sides — matched against a name.
For the patterns produced by `getPlatformInfo` (alphanumerics, `-`, `.`
and `*` only) this is exactly glob matching: `*` matches any run of
characters, every other character matches itself. -/
def globMatch : Chars → Chars → Bool
  | [], s => s.isEmpty
  | '*' :: ps, s => s.tails.any (fun suf => globMatch ps suf)
  | _ :: _, [] => false
  | p :: ps, c :: cs => p == c && globMatch ps cs

/-- `matchAssetName(pattern, assetName)` (`manager.ts` lines 93-99). -/
def matchAssetName (pattern assetName : String) : Bool :=
  globMatch pattern.data assetName.data

/-! ## Checksum verification (`manager.ts`, `verifyChecksum`, lines 248-316) -/

/-- The checksum-manifest lookup (`manager.ts` lines 254-259):
`assets.find(a => a.name === "checksums.txt" || a.name === "SHA256SUMS"
|| a.name.toLowerCase().includes("checksum"))`. -/
def findChecksumAsset (assets : List GitHubAsset) : Option GitHubAsset :=
  assets.find? (fun a =>
    a.name == "checksums.txt" || a.name == "SHA256SUMS" ||
      containsChars (lowerChars a.name.data) "checksum".data)

/-- The manifest-parsing loop (`manager.ts` lines 283-289): the first
line whose trimmed whitespace-split form has at least two fields with
the second equal to the asset name supplies the expected hash,
lower-cased. -/
def findExpectedHash (assetName : Chars) : List Chars → Option Chars
  | [] => none
  | line :: rest =>
    match splitWs (jsTrim line) with
    | p0 :: p1 :: _ =>
      if p1 = assetName then some (lowerChars p0)
      else findExpectedHash assetName rest
    | _ => findExpectedHash assetName rest

/-- `verifyChecksum(assets, assetName, data)` (`manager.ts` lines
248-316).  `digestHex` stands for the hex digest that
`crypto.createHash("sha256").update(data).digest("hex")` returns for the
downloaded bytes (the one external primitive of this function);
`checksumFetch` is the outcome of the `requestUrl` call for the manifest
asset.  Returns `some true` on a match, `some false` on a mismatch, and
`none` (the source's `null`) when verification is skipped. -/
def verifyChecksum (digestHex : String) (assets : List GitHubAsset)
    (assetName : String) (checksumFetch : FetchOutcome) : Option Bool :=
  match findChecksumAsset assets with
  | none => none
  | some _ =>
    match checksumFetch with
    | .thrown _ => none
    | .response status text =>
      if status ≠ 200 then none
      else
        match findExpectedHash assetName.data (splitSep '\n' text.data) with
        | none => none
        | some expectedHash =>
          let actualHash := lowerChars digestHex.data
          if actualHash ≠ expectedHash then some false else some true

/-! ## Binary download (`manager.ts`, `downloadBinary`, lines 124-202) -/

/-- A file-system side effect performed by the download/update pipeline,
in order of execution. -/
inductive FsAction where
  | mkdirAct (path : String)
  | writeFileAct (path : String)
  | unlinkAct (path : String)
  | extractTarGzAct (path : String)
  | extractZipAct (path : String)
  | chmodAct (path : String)
deriving DecidableEq

/-- Outcome of the release-index request, with the body already parsed
(`JSON.parse` of a 200 response is external to the model). -/
inductive ReleaseFetch where
  | thrown (msg : String)
  | response (status : Nat) (release : GitHubRelease)
deriving DecidableEq

/-- Outcome of the archive download; a 200 response is represented by
the SHA-256 hex digest of its bytes (the only use the pipeline makes of
them besides writing them to disk). -/
inductive ArchiveFetch where
  | thrown (msg : String)
  | response (status : Nat) (digestHex : String)
deriving DecidableEq

/-- The external world as seen by one `downloadBinary` run. -/
structure DownloadEnv where
  releaseResp : ReleaseFetch
  archiveResp : ArchiveFetch
  checksumFetch : FetchOutcome
  extractExit : Int
deriving DecidableEq

/-- `path.join(vaultPath, ".obsidian/plugins/leafpress/bin")`
(`manager.ts` line 152). -/
def binDirOf (vaultPath : String) : String :=
  vaultPath ++ "/.obsidian/plugins/leafpress/bin"

/-- `downloadBinary()` (`manager.ts` lines 124-202), as a function from
the platform data (`assetPattern`, `executable`, `isWin` from
`getPlatformInfo`), the vault path and the external world to the
ordered list of file-system actions performed and the overall outcome
(`.error` models the function throwing).  File-system writes themselves
are assumed to succeed; the best-effort archive cleanup of lines
188-192 is recorded as an `unlinkAct`. -/
def downloadBinary (assetPattern executable : String) (isWin : Bool)
    (vaultPath : String) (env : DownloadEnv) :
    List FsAction × Except String Unit :=
  match env.releaseResp with
  | .thrown m => ([], .error m)
  | .response status rel =>
    if status ≠ 200 then ([], .error ("GitHub API error: " ++ toString status))
    else
      match rel.assets.find? (fun a => matchAssetName assetPattern a.name) with
      | none => ([], .error ("Binary not found. Expected pattern: " ++ assetPattern))
      | some asset =>
        let binDir := binDirOf vaultPath
        let acts0 := [FsAction.mkdirAct binDir]
        match env.archiveResp with
        | .thrown m => (acts0, .error m)
        | .response ast digestHex =>
          if ast ≠ 200 then (acts0, .error ("Download failed: " ++ toString ast))
          else
            let archivePath := binDir ++ "/" ++ asset.name
            let acts1 := acts0 ++ [FsAction.writeFileAct archivePath]
            match verifyChecksum digestHex rel.assets asset.name env.checksumFetch with
            | some false =>
              (acts1 ++ [FsAction.unlinkAct archivePath],
               .error "Checksum verification failed - download may be corrupted")
            | _ =>
              if ".tar.gz".data.isSuffixOf asset.name.data then
                if env.extractExit = 0 then
                  let acts2 := acts1 ++ [FsAction.extractTarGzAct archivePath] ++
                    (if isWin then [] else [FsAction.chmodAct (binDir ++ "/" ++ executable)])
                  (acts2 ++ [FsAction.unlinkAct archivePath], .ok ())
                else
                  (acts1 ++ [FsAction.extractTarGzAct archivePath],
                   .error ("tar extraction failed with code " ++ toString env.extractExit))
              else if ".zip".data.isSuffixOf asset.name.data then
                if env.extractExit = 0 then
                  (acts1 ++ [FsAction.extractZipAct archivePath, FsAction.unlinkAct archivePath], .ok ())
                else
                  (acts1 ++ [FsAction.extractZipAct archivePath],
                   .error ("unzip extraction failed with code " ++ toString env.extractExit))
              else
                (acts1 ++ [FsAction.unlinkAct archivePath], .ok ())

example :
    verifyChecksum "ABCdef01"
      [⟨"checksums.txt", "u1", 5⟩, ⟨"myfile.tar.gz", "u2", 9⟩]
      "myfile.tar.gz" (.response 200 "abcdef01 myfile.tar.gz") = some true := by decide

example :
    verifyChecksum "abcdef01"
      [⟨"checksums.txt", "u1", 5⟩, ⟨"myfile.tar.gz", "u2", 9⟩]
      "myfile.tar.gz" (.response 200 "1111 myfile.tar.gz") = some false := by decide

example :
    matchAssetName "leafpress-v*-darwin-arm64.tar.gz"
      "leafpress-v1.2.3-darwin-arm64.tar.gz" = true := by decide

example :
    matchAssetName "leafpress-v*-darwin-arm64.tar.gz"
      "leafpress-v1.2.3-linux-amd64.tar.gz" = false := by decide

/-! ## Binary locator and guard (`manager.ts`, `getBinaryPath` lines
79-91, `ensureBinary` lines 101-122, `updateBinary` lines 363-405).

A custom binary path is the `customBinaryPath` setting; the JavaScript
truthiness test `if (this.customBinaryPath)` is modelled by comparison
with the empty string (the setting's default). -/

/-- The `~`-expansion of `getBinaryPath` (`manager.ts` lines 82-86):
`expandedPath.replace(/^~/, os.homedir())` applied when the custom path
starts with `~`. -/
def expandHome (home p : String) : String :=
  if "~".data.isPrefixOf p.data then home ++ String.mk (p.data.drop 1) else p

/-- `getBinaryPath()` (`manager.ts` lines 79-91): the home-expanded
custom path when one is configured, otherwise the managed
`<vault>/.obsidian/plugins/leafpress/bin/<executable>` path. -/
def getBinaryPath (customBinaryPath home vaultPath executable : String) : String :=
  if customBinaryPath ≠ "" then expandHome home customBinaryPath
  else binDirOf vaultPath ++ "/" ++ executable

/-- `ensureBinary()` (`manager.ts` lines 101-122) as a function of the
configuration, the file-existence oracle `fsExists` (`fs.access`
succeeding), and the outcome the download pipeline would have.  Returns
the overall outcome paired with whether `downloadBinary` was invoked. -/
def ensureBinary (customBinaryPath home vaultPath executable : String)
    (fsExists : String → Bool) (downloadOutcome : Except String Unit) :
    Except String Unit × Bool :=
  let binaryPath := getBinaryPath customBinaryPath home vaultPath executable
  if customBinaryPath ≠ "" then
    (if fsExists binaryPath then .ok ()
     else .error ("Custom binary not found at: " ++ binaryPath), false)
  else
    if fsExists binaryPath then (.ok (), false)
    else (downloadOutcome, true)

/-- A step of `updateBinary` (`manager.ts` lines 363-405), in execution
order. -/
inductive UpdateAction where
  | copyToBackup
  | runDownload
  | removeBackup
  | restoreFromBackup
deriving DecidableEq

/-- `updateBinary()` (`manager.ts` lines 363-405): fails immediately
when a custom path is configured; otherwise best-effort backup, the
download pipeline, then backup cleanup on success or restore attempt
(and a rethrow) on failure. -/
def updateBinary (customBinaryPath : String) (backupCopyOk : Bool)
    (downloadOutcome : Except String Unit) :
    Except String Unit × List UpdateAction :=
  if customBinaryPath ≠ "" then
    (.error "Cannot update custom binary path. Remove custom path from settings first.", [])
  else
    let acts0 := if backupCopyOk then [UpdateAction.copyToBackup] else []
    match downloadOutcome with
    | .ok () => (.ok (), acts0 ++ [UpdateAction.runDownload, UpdateAction.removeBackup])
    | .error e => (.error e, acts0 ++ [UpdateAction.runDownload, UpdateAction.restoreFromBackup])

/-! ## CLI invocation result (`types.ts` `CLIResult`; `manager.ts`,
`execCommand`, lines 466-524) -/

/-- `CLIResult` (`types.ts`): the immutable snapshot of one subprocess
run. -/
structure CLIResult where
  success : Bool
  stdout : String
  stderr : String
  code : Int
deriving DecidableEq

/-- JavaScript `a || d` on `number | null` operands: `null` and `0` are
falsy and replaced by the default. -/
def jsOrNum (a : Option Int) (d : Int) : Int :=
  match a with
  | some n => if n ≠ 0 then n else d
  | none => d

/-- The `close` handler of `execCommand` (`manager.ts` lines 486-493):
`resolve({ success: code === 0, stdout, stderr, code: code || 1 })`,
where `code` is the exit code Node reports (`none` models `null`, a
signal-terminated child). -/
def execCloseResult (exitCode : Option Int) (stdout stderr : String) : CLIResult :=
  { success := exitCode == some 0
    stdout := stdout
    stderr := stderr
    code := jsOrNum exitCode 1 }

/-! ## Update check fallback (`manager.ts`, `checkForUpdates`, lines
318-361) -/

/-- The record `checkForUpdates` resolves with (`manager.ts` lines
352-356). -/
structure UpdateCheckInfo where
  currentVersion : String
  latestVersion : String
  hasUpdate : Bool
deriving DecidableEq

/-- `checkForUpdates` in the fallback case of the claim: the installed
binary's version could not be obtained or parsed, so `currentVersion`
stays `"0.0.0"` (`manager.ts` lines 337-348) and the comparison runs
against `latestVersion = (release.tag_name || "unknown").replace(/^v/,
"")` (lines 333-335, 350). -/
def checkForUpdatesFallback (tagName : String) : UpdateCheckInfo :=
  let latestVersion := String.mk (stripLeadingV (if tagName = "" then "unknown".data else tagName.data))
  { currentVersion := "0.0.0"
    latestVersion := latestVersion
    hasUpdate := decide (compareVersions "0.0.0" latestVersion < 0) }

/-! ## Status-panel reconciliation (`panel.ts`, `getDeploymentStatus`,
lines 350-454) -/

/-- One pending-change entry (`panel.ts` lines 403, 411-428). -/
structure PendingFile where
  status : String
  file : String
deriving DecidableEq

/-- `file.replace(/^\//, "")` (`panel.ts` lines 415, 425): strip one
leading slash. -/
def stripLeadingSlash (s : String) : String :=
  match s.data with
  | '/' :: r => String.mk r
  | _ => s

/-- The diff of `getDeploymentStatus` (`panel.ts` lines 402-435):
`currentFiles` are the paths enumerated under `_site`, `deployedFiles`
are `Object.keys(lastDeploy.filesDeployed || {})`.  Paths only in
`currentFiles` are pushed as `"added"`, then paths only in
`deployedFiles` as `"deleted"`; nothing else is pushed (the source
comments at lines 430-431 that modified detection would require
comparing hashes and is not done). -/
def pendingFilesOf (currentFiles deployedFiles : List String) : List PendingFile :=
  (currentFiles.filter (fun f => ¬ deployedFiles.contains f)).map
      (fun f => ⟨"added", stripLeadingSlash f⟩) ++
    (deployedFiles.filter (fun f => ¬ currentFiles.contains f)).map
      (fun f => ⟨"deleted", stripLeadingSlash f⟩)

/-- The pending-change part of the record `getDeploymentStatus` returns
(`panel.ts` lines 444-449): `pendingCount` is the length of the full
diff, `pendingFiles` is `pendingFiles.slice(0, 50)`.  (The formatted
timestamp and live URL of the record are wall-clock presentation and
not modelled.) -/
structure DeployStatusInfo where
  pendingCount : Nat
  pendingFiles : List PendingFile
deriving DecidableEq

/-- `getDeploymentStatus`'s result for given current and deployed path
lists (`panel.ts` lines 444-449). -/
def deployStatusOf (currentFiles deployedFiles : List String) : DeployStatusInfo :=
  let pendingFiles := pendingFilesOf currentFiles deployedFiles
  { pendingCount := pendingFiles.length
    pendingFiles := pendingFiles.take 50 }

/-- The diff as the specification words it (spec §4.6 `diff(current,
deployed)`), for the refinement comparison of claim C1: inputs are
path-to-content-hash mappings; a path only in `current` is "added", a
path in both with differing hash is "modified", a path only in
`deployed` is "deleted".  This definition follows the spec's words, not
the source. -/
def specDiff (current deployed : List (String × String)) : List PendingFile :=
  (current.filterMap (fun pc =>
    match deployed.find? (fun pd => pd.1 == pc.1) with
    | none => some ⟨"added", pc.1⟩
    | some pd => if pd.2 ≠ pc.2 then some ⟨"modified", pc.1⟩ else none)) ++
    (deployed.filter (fun pd => ¬ (current.map Prod.fst).contains pd.1)).map
      (fun pd => ⟨"deleted", pd.1⟩)

/-! ## Server start model (`panel.ts`, `startServer` lines 306-319,
`killPortProcess` lines 329-335; `manager.ts`, `execCommand` spawning
`serve`).

`startServer` runs `await killPortProcess(3000)` — which force-kills
every process currently bound to port 3000 — then awaits
`ensureBinary()` and finally fires `execCommand(["serve"])`, which
spawns a serve child process.  Each `await` is a yield point of the
single-threaded cooperative host, so the steps of two `startServer`
invocations may interleave.  The panel class stores no reference to the
spawned child (its only fields, `panel.ts` lines 11-14, are
`binaryManager`, `vaultPath`, `statusRefreshInterval`, `isRefreshing`),
so no step below touches the tracked-handle count, which the state
carries to express claim C2. -/

/-- Lifecycle phase of one spawned serve subprocess: freshly spawned
and not yet bound to the port, bound to the port, or killed. -/
inductive ProcPhase where
  | unbound
  | bound
  | killed
deriving DecidableEq

/-- Supervision state: every serve subprocess spawned so far with its
phase, and the number of live serve-process handles the plugin tracks. -/
structure ServerState where
  procs : List ProcPhase
  trackedHandles : Nat
deriving DecidableEq

/-- The three awaited phases of one `startServer()` run
(`panel.ts` lines 306-319), in source order. -/
inductive StartStep where
  | killPort
  | ensureBin
  | spawnServe
deriving DecidableEq

/-- Effect of one `startServer` phase: `killPort` kills every process
bound to the port (`lsof -ti:3000 | xargs kill -9`), `ensureBin` has no
process effect (the binary is present), `spawnServe` spawns a new serve
child, initially not yet bound.  No phase stores a handle. -/
def execStep (s : ServerState) : StartStep → ServerState
  | .killPort => { s with procs := s.procs.map (fun p => if p = .bound then .killed else p) }
  | .ensureBin => s
  | .spawnServe => { s with procs := s.procs ++ [.unbound] }

/-- An event of the whole system: a phase of some `startServer` run, or
a spawned serve child asynchronously binding the port. -/
inductive ServerEvent where
  | step (s : StartStep)
  | bindPort (i : Nat)
deriving DecidableEq

/-- Event semantics: `bindPort i` moves the i-th spawned process from
`unbound` to `bound` (a no-op otherwise). -/
def execEvent (s : ServerState) : ServerEvent → ServerState
  | .step st => execStep s st
  | .bindPort i =>
    if s.procs[i]? = some ProcPhase.unbound then { s with procs := s.procs.set i .bound }
    else s

/-- Run a sequence of events from a state. -/
def runEvents (s : ServerState) (evs : List ServerEvent) : ServerState :=
  evs.foldl execEvent s

/-- The initial supervision state: no serve subprocess, no tracked
handle. -/
def initServerState : ServerState := { procs := [], trackedHandles := 0 }

/-- The phases of one `startServer()` run, in order. -/
def startSteps : List StartStep := [.killPort, .ensureBin, .spawnServe]

/-- `Interleaves xs ys zs`: `zs` is an interleaving of `xs` and `ys`
(each kept in order) — the executions the cooperative host can produce
for two overlapping `startServer()` invocations. -/
inductive Interleaves : List StartStep → List StartStep → List StartStep → Prop where
  | nil : Interleaves [] [] []
  | left {x xs ys zs} : Interleaves xs ys zs → Interleaves (x :: xs) ys (x :: zs)
  | right {xs y ys zs} : Interleaves xs ys zs → Interleaves xs (y :: ys) (y :: zs)

/-- Serve subprocesses not killed. -/
def liveProcs (s : ServerState) : Nat :=
  (s.procs.filter (fun p => p ≠ ProcPhase.killed)).length

/-! ## Concrete fixtures used by witnesses and concrete theorems -/

/-- A release asset list holding a checksum manifest and one archive. -/
def sampleAssets : List GitHubAsset :=
  [⟨"checksums.txt", "u1", 5⟩, ⟨"myfile.tar.gz", "u2", 9⟩]

/-- The same release contents without any checksum-manifest asset. -/
def sampleAssetsNoManifest : List GitHubAsset :=
  [⟨"myfile.tar.gz", "u2", 9⟩]

/-! # Claims -/

/-- C6: the version comparator satisfies the specified
semantic-versioning order on the spec's test vectors — patch compared
numerically, release above pre-release of the same base, numeric
pre-release identifiers compared numerically, a proper-prefix
pre-release list ranking lower, and major dominating minor/patch. -/
theorem compareVersions_semver_order :
    compareVersions "1.0.0" "1.0.1" < 0 ∧
    compareVersions "1.0.0-alpha" "1.0.0" < 0 ∧
    compareVersions "1.0.0-alpha.1" "1.0.0-alpha.2" < 0 ∧
    compareVersions "1.0.0-alpha" "1.0.0-alpha.1" < 0 ∧
    compareVersions "2.0.0" "1.9.9" > 0 := by decide

/-- C3: `verifyChecksum` returns `some true` when the manifest entry for
the asset name equals the SHA-256 digest of the downloaded bytes up to
letter case (here the digest `"ABCdef01"` against the manifest line
`"abcdef01 myfile.tar.gz"`), `some false` when the manifest carries a
different hash for that name, and `none` — not `some false` — for every
digest and every network outcome when the release holds no
checksum-manifest asset at all. -/
theorem verifyChecksum_three_outcomes :
    verifyChecksum "ABCdef01" sampleAssets "myfile.tar.gz"
      (.response 200 "abcdef01 myfile.tar.gz") = some true ∧
    verifyChecksum "ABCdef01" sampleAssets "myfile.tar.gz"
      (.response 200 "1111 myfile.tar.gz") = some false ∧
    (∀ (digestHex : String) (fetch : FetchOutcome),
      verifyChecksum digestHex sampleAssetsNoManifest "myfile.tar.gz" fetch = none) :=
  ⟨by decide, by decide, fun _ _ => rfl⟩

/-- C10: when a checksum-manifest asset exists, `verifyChecksum` still
returns `none` (skip) — never `some false` and never a propagated
error — when the manifest request throws, when it answers with a
non-200 status, and when the manifest text has no entry for the asset's
name. -/
theorem verifyChecksum_skip_on_manifest_trouble
    (digestHex m t : String) (s : Nat) (hs : s ≠ 200) :
    verifyChecksum digestHex sampleAssets "myfile.tar.gz" (.thrown m) = none ∧
    verifyChecksum digestHex sampleAssets "myfile.tar.gz" (.response s t) = none ∧
    verifyChecksum digestHex sampleAssets "myfile.tar.gz"
      (.response 200 "aaaa otherfile.tar.gz") = none := by
  have h1 : findChecksumAsset sampleAssets = some ⟨"checksums.txt", "u1", 5⟩ := by decide
  refine ⟨rfl, ?_, rfl⟩
  simp only [verifyChecksum, h1]
  rw [if_pos hs]

/-- Witness for C10 at a concrete non-200 status. -/
theorem verifyChecksum_skip_on_manifest_trouble_witness :
    (404 ≠ 200) ∧
    verifyChecksum "abcd" sampleAssets "myfile.tar.gz" (.response 404 "x") = none :=
  ⟨by decide,
   (verifyChecksum_skip_on_manifest_trouble "abcd" "m" "x" 404 (by decide)).2.1⟩

/-- C5 (code bug): the `close` handler of `execCommand` builds the
result with `code: code || 1`, so a process that runs to completion
with exit code 0 yields `{ success: true, code: 1 }` — the success flag
is computed from the actual exit code, but the exit-code field holds 1,
not 0.  A nonzero exit code is carried faithfully. -/
theorem execCommand_exit_zero_code_bug :
    execCloseResult (some 0) "out" "err" = ⟨true, "out", "err", 1⟩ ∧
    execCloseResult (some 2) "out" "err" = ⟨false, "out", "err", 2⟩ := by decide

/-- C8: whenever the pending-change diff has more than 50 entries, the
returned list is truncated to exactly 50 while `pendingCount` reports
the untruncated total. -/
theorem deployStatus_truncation (c d : List String)
    (h : 50 < (pendingFilesOf c d).length) :
    (deployStatusOf c d).pendingCount = (pendingFilesOf c d).length ∧
    (deployStatusOf c d).pendingFiles.length = 50 := by
  refine ⟨rfl, ?_⟩
  simp only [deployStatusOf, List.length_take]
  omega

set_option maxRecDepth 4000 in
/-- Witness for C8 with a 120-entry diff: the list is capped at 50, the
count reports 120. -/
theorem deployStatus_truncation_witness :
    50 < (pendingFilesOf (List.replicate 120 "/a") []).length ∧
    (deployStatusOf (List.replicate 120 "/a") []).pendingCount = 120 ∧
    (deployStatusOf (List.replicate 120 "/a") []).pendingFiles.length = 50 := by
  have h : 50 < (pendingFilesOf (List.replicate 120 "/a") []).length := by decide
  have h2 := deployStatus_truncation (List.replicate 120 "/a") [] h
  exact ⟨h, by rw [h2.1]; decide, h2.2⟩

/-- C9: with a custom binary path configured, `ensureBinary` never
invokes the download pipeline and succeeds exactly when the
home-expanded path exists (failing with the custom-binary error
otherwise), and `updateBinary` fails immediately with its custom-path
error before performing any backup, download or restore step. -/
theorem customBinaryPath_no_auto_remediation
    (custom home vaultPath executable : String) (fsExists : String → Bool)
    (dl dlu : Except String Unit) (backupCopyOk : Bool)
    (hc : custom ≠ "") :
    (ensureBinary custom home vaultPath executable fsExists dl).2 = false ∧
    (ensureBinary custom home vaultPath executable fsExists dl).1 =
      (if fsExists (expandHome home custom) then .ok ()
       else .error ("Custom binary not found at: " ++ expandHome home custom)) ∧
    updateBinary custom backupCopyOk dlu =
      (.error "Cannot update custom binary path. Remove custom path from settings first.", []) := by
  unfold ensureBinary updateBinary getBinaryPath
  simp [hc]

/-- Witness for C9 at the custom path `~/bin/lp` over a file system
where the path is missing. -/
theorem customBinaryPath_no_auto_remediation_witness :
    ("~/bin/lp" ≠ "") ∧
    (ensureBinary "~/bin/lp" "/home/u" "/v" "leafpress" (fun _ => false) (.ok ())).2 = false ∧
    (ensureBinary "~/bin/lp" "/home/u" "/v" "leafpress" (fun _ => false) (.ok ())).1 =
      .error "Custom binary not found at: /home/u/bin/lp" ∧
    updateBinary "~/bin/lp" true (.ok ()) =
      (.error "Cannot update custom binary path. Remove custom path from settings first.", []) := by
  have h := customBinaryPath_no_auto_remediation "~/bin/lp" "/home/u" "/v" "leafpress"
    (fun _ => false) (.ok ()) (.ok ()) true (by decide)
  exact ⟨by decide, h.1, h.2.1.trans rfl, h.2.2⟩

/-- C4: whenever the run reaches checksum verification (release fetched
with status 200, an asset matched, the archive downloaded with status
200 and saved) and `verifyChecksum` reports a mismatch (`some false`),
`downloadBinary` fails with the checksum error and its last file-system
action — before the error propagates — is deleting the saved archive,
so no corrupt artifact remains. -/
theorem downloadBinary_mismatch_deletes_archive
    (assetPattern executable : String) (isWin : Bool) (vaultPath : String)
    (env : DownloadEnv) (rel : GitHubRelease) (asset : GitHubAsset) (digestHex : String)
    (h1 : env.releaseResp = .response 200 rel)
    (h2 : rel.assets.find? (fun a => matchAssetName assetPattern a.name) = some asset)
    (h3 : env.archiveResp = .response 200 digestHex)
    (h4 : verifyChecksum digestHex rel.assets asset.name env.checksumFetch = some false) :
    downloadBinary assetPattern executable isWin vaultPath env =
      ([FsAction.mkdirAct (binDirOf vaultPath),
        FsAction.writeFileAct (binDirOf vaultPath ++ "/" ++ asset.name),
        FsAction.unlinkAct (binDirOf vaultPath ++ "/" ++ asset.name)],
       .error "Checksum verification failed - download may be corrupted") := by
  unfold downloadBinary
  rw [h1]
  simp only [h2, h3, h4]
  norm_num

/-- A release whose archive asset will fail checksum verification in
the C4 witness: the manifest names hash `bbbb` while the downloaded
bytes hash to `aaaa`. -/
def sampleBadRelease : GitHubRelease :=
  ⟨"v1.0.0", [⟨"checksums.txt", "cu", 5⟩,
              ⟨"leafpress-v1.0.0-darwin-arm64.tar.gz", "au", 100⟩]⟩

/-- Witness for C4 at a fully concrete environment. -/
theorem downloadBinary_mismatch_deletes_archive_witness :
    downloadBinary "leafpress-v*-darwin-arm64.tar.gz" "leafpress" false "/v"
      ⟨.response 200 sampleBadRelease, .response 200 "aaaa",
       .response 200 "bbbb leafpress-v1.0.0-darwin-arm64.tar.gz", 0⟩ =
      ([FsAction.mkdirAct "/v/.obsidian/plugins/leafpress/bin",
        FsAction.writeFileAct "/v/.obsidian/plugins/leafpress/bin/leafpress-v1.0.0-darwin-arm64.tar.gz",
        FsAction.unlinkAct "/v/.obsidian/plugins/leafpress/bin/leafpress-v1.0.0-darwin-arm64.tar.gz"],
       .error "Checksum verification failed - download may be corrupted") := by
  have h := downloadBinary_mismatch_deletes_archive
    "leafpress-v*-darwin-arm64.tar.gz" "leafpress" false "/v"
    ⟨.response 200 sampleBadRelease, .response 200 "aaaa",
     .response 200 "bbbb leafpress-v1.0.0-darwin-arm64.tar.gz", 0⟩
    sampleBadRelease ⟨"leafpress-v1.0.0-darwin-arm64.tar.gz", "au", 100⟩ "aaaa"
    rfl (by decide) rfl (by decide)
  exact h.trans rfl

/-- C1 counterexample: with the path `/a.html` present both in the
current `_site` enumeration and (with recorded hash `h1`) in the
deployed-file mapping, while the current content hashes to `h2 ≠ h1`,
the claim requires a `"modified"` entry; the panel's reconciliation —
which reads only the two path sets and never a content hash — reports
nothing, while the spec-worded diff reports the `"modified"` entry. -/
theorem panel_diff_no_modified_counterexample :
    pendingFilesOf ["/a.html"] ["/a.html"] = [] ∧
    specDiff [("/a.html", "h2")] [("/a.html", "h1")] =
      [⟨"modified", "/a.html"⟩] := by decide

/-- C1 amended: the panel's diff reports a path present in current but
not in deployed as `"added"` and a path present in deployed but not in
current as `"deleted"` (with one leading slash stripped), and every
entry is one of those two — a path present in both sets is never
reported, and in particular the status `"modified"` is never produced
(content hashes are not compared). -/
theorem panel_diff_added_deleted_only (current deployed : List String) :
    (∀ e ∈ pendingFilesOf current deployed,
      e.status = "added" ∨ e.status = "deleted") ∧
    (∀ p, p ∈ current → p ∉ deployed →
      (⟨"added", stripLeadingSlash p⟩ : PendingFile) ∈ pendingFilesOf current deployed) ∧
    (∀ p, p ∈ deployed → p ∉ current →
      (⟨"deleted", stripLeadingSlash p⟩ : PendingFile) ∈ pendingFilesOf current deployed) ∧
    (∀ e ∈ pendingFilesOf current deployed, e.status ≠ "modified") := by
  refine ⟨?_, ?_, ?_, ?_⟩
  · intro e he
    rcases List.mem_append.1 he with h | h
    · rcases List.mem_map.1 h with ⟨f, _, rfl⟩
      exact Or.inl rfl
    · rcases List.mem_map.1 h with ⟨f, _, rfl⟩
      exact Or.inr rfl
  · intro p hp hnp
    refine List.mem_append.2 (Or.inl (List.mem_map.2 ⟨p, ?_, rfl⟩))
    refine List.mem_filter.2 ⟨hp, ?_⟩
    simpa using hnp
  · intro p hp hnp
    refine List.mem_append.2 (Or.inr (List.mem_map.2 ⟨p, ?_, rfl⟩))
    refine List.mem_filter.2 ⟨hp, ?_⟩
    simpa using hnp
  · intro e he
    rcases List.mem_append.1 he with h | h
    · rcases List.mem_map.1 h with ⟨f, _, rfl⟩
      exact (by decide : ("added" : String) ≠ "modified")
    · rcases List.mem_map.1 h with ⟨f, _, rfl⟩
      exact (by decide : ("deleted" : String) ≠ "modified")

/-- Witness for C1 amended on concrete current/deployed sets. -/
theorem panel_diff_added_deleted_only_witness :
    (⟨"added", "x"⟩ : PendingFile) ∈ pendingFilesOf ["/x"] ["/y"] ∧
    (⟨"deleted", "y"⟩ : PendingFile) ∈ pendingFilesOf ["/x"] ["/y"] := by
  have h := panel_diff_added_deleted_only ["/x"] ["/y"]
  exact ⟨h.2.1 "/x" (by decide) (by decide), h.2.2.1 "/y" (by decide) (by decide)⟩

/-- The interleaving of two `startServer()` runs in which both
port-kill phases complete before either spawn: the second invocation is
issued while the first is suspended at its first `await`. -/
def doubleStartSeq : List StartStep :=
  [.killPort, .ensureBin, .killPort, .ensureBin, .spawnServe, .spawnServe]

/-- C2 counterexample: running two rapid `startServer()` invocations in
the interleaving `doubleStartSeq` — a schedule the cooperative host can
produce, since each `await` yields — ends with zero tracked handles
(the panel stores no reference to the spawned child, so no step can
track one) and two spawned serve subprocesses, both alive; the claim's
"exactly one tracked handle and one spawned serve subprocess" fails on
both counts. -/
theorem rapid_double_start_counterexample :
    Interleaves startSteps startSteps doubleStartSeq ∧
    (runEvents initServerState (doubleStartSeq.map ServerEvent.step)).trackedHandles = 0 ∧
    (runEvents initServerState (doubleStartSeq.map ServerEvent.step)).procs =
      [.unbound, .unbound] := by
  refine ⟨?_, by decide, by decide⟩
  exact .left (.left (.right (.right (.left (.right .nil)))))

/-- Invariant: no event of the model changes the tracked-handle count —
`startServer` (`panel.ts` lines 306-319) stores no reference to the
child process it spawns. -/
theorem runEvents_trackedHandles (s : ServerState) (evs : List ServerEvent) :
    (runEvents s evs).trackedHandles = s.trackedHandles := by
  induction evs generalizing s with
  | nil => rfl
  | cons e evs ih =>
    rw [runEvents, List.foldl_cons, ← runEvents, ih]
    cases e with
    | step st => cases st <;> rfl
    | bindPort i =>
      simp only [execEvent]
      split <;> rfl

/-- C2 amended: the plugin tracks no serve-process handle at all — from
the initial state, every event sequence (any interleaving of
`startServer` phases and port bindings) leaves the tracked-handle count
at zero, never one — and duplicate spawns are only mitigated by the
port kill, which does not serialize rapid starts: some interleaving of
two `startServer()` runs leaves two live serve subprocesses. -/
theorem start_tracks_no_handle_and_can_double_spawn :
    (∀ evs : List ServerEvent,
      (runEvents initServerState evs).trackedHandles = 0) ∧
    ∃ seq : List StartStep, Interleaves startSteps startSteps seq ∧
      liveProcs (runEvents initServerState (seq.map ServerEvent.step)) = 2 := by
  refine ⟨fun evs => runEvents_trackedHandles initServerState evs, doubleStartSeq, ?_, by decide⟩
  exact .left (.left (.right (.right (.left (.right .nil)))))

/-! ## Helper lemmas for the update-check characterization (C7) -/

/-- The splitter never returns an empty list of pieces. -/
theorem splitSepAux_ne_nil (sep : Char) (s : Chars) :
    ∀ acc, splitSepAux sep s acc ≠ [] := by
  induction s with
  | nil => intro acc; simp [splitSepAux]
  | cons c cs ih =>
    intro acc
    simp only [splitSepAux]
    by_cases hc : c = sep
    · rw [if_pos hc]; simp
    · rw [if_neg hc]; exact ih (c :: acc)

/-- No piece produced by the splitter contains the separator. -/
theorem splitSepAux_no_sep (sep : Char) (s : Chars) :
    ∀ acc, sep ∉ acc → ∀ p ∈ splitSepAux sep s acc, sep ∉ p := by
  induction s with
  | nil =>
    intro acc hacc p hp
    simp only [splitSepAux, List.mem_singleton] at hp
    subst hp
    simpa using hacc
  | cons c cs ih =>
    intro acc hacc p hp
    simp only [splitSepAux] at hp
    by_cases hc : c = sep
    · rw [if_pos hc] at hp
      rcases List.mem_cons.1 hp with rfl | hp
      · simpa using hacc
      · exact ih [] (by simp) p hp
    · rw [if_neg hc] at hp
      refine ih (c :: acc) ?_ p hp
      intro hm
      rcases List.mem_cons.1 hm with h | h
      · exact hc h.symm
      · exact hacc h

/-- Every character of a piece produced by the splitter comes from the
input (or the accumulator). -/
theorem splitSepAux_mem_subset (sep : Char) (s : Chars) :
    ∀ acc, ∀ p ∈ splitSepAux sep s acc, ∀ x ∈ p, x ∈ s ∨ x ∈ acc := by
  induction s with
  | nil =>
    intro acc p hp x hx
    simp only [splitSepAux, List.mem_singleton] at hp
    subst hp
    exact Or.inr (List.mem_reverse.1 hx)
  | cons c cs ih =>
    intro acc p hp x hx
    simp only [splitSepAux] at hp
    by_cases hc : c = sep
    · rw [if_pos hc] at hp
      rcases List.mem_cons.1 hp with rfl | hp
      · exact Or.inr (List.mem_reverse.1 hx)
      · rcases ih [] p hp x hx with h | h
        · exact Or.inl (List.mem_cons_of_mem c h)
        · simp at h
    · rw [if_neg hc] at hp
      rcases ih (c :: acc) p hp x hx with h | h
      · exact Or.inl (List.mem_cons_of_mem c h)
      · rcases List.mem_cons.1 h with rfl | h
        · exact Or.inl (List.mem_cons_self _ _)
        · exact Or.inr h

/-- `parseInt` of a token that contains no minus sign never yields a
negative number. -/
theorem jsParseInt_nonneg (p : Chars) (h : ('-' : Char) ∉ p) :
    ∀ x, jsParseInt p = some x → 0 ≤ x := by
  intro x hx
  unfold jsParseInt at hx
  split at hx
  · exfalso
    apply h
    rename_i r heq
    have hm : ('-' : Char) ∈ p.dropWhile Char.isWhitespace := by
      rw [heq]; exact List.mem_cons_self _ _
    exact (List.dropWhile_sublist _).subset hm
  · split at hx
    · exact absurd hx (by simp)
    · rw [Option.some_inj] at hx
      exact hx ▸ Int.natCast_nonneg _
  · split at hx
    · exact absurd hx (by simp)
    · rw [Option.some_inj] at hx
      exact hx ▸ Int.natCast_nonneg _

/-- The parsed `major`/`minor`/`patch` components of any version string
are nonnegative whenever present: the base part contains no `-` (the
pre-release split removed every one), so `parseInt` cannot see a sign. -/
theorem parseVersionChars_nonneg (v : Chars) :
    (∀ x, (parseVersionChars v).major = some x → 0 ≤ x) ∧
    (∀ x, (parseVersionChars v).minor = some x → 0 ≤ x) ∧
    (∀ x, (parseVersionChars v).patch = some x → 0 ≤ x) := by
  have hbase : ('-' : Char) ∉ (splitSep '-' (stripLeadingV v)).headD [] := by
    rcases hl : splitSep '-' (stripLeadingV v) with _ | ⟨a, t⟩
    · exact absurd hl (splitSepAux_ne_nil '-' (stripLeadingV v) [])
    · have ha : a ∈ splitSepAux '-' (stripLeadingV v) [] := by
        rw [show splitSepAux '-' (stripLeadingV v) [] = a :: t from hl]
        exact List.mem_cons_self _ _
      have := splitSepAux_no_sep '-' (stripLeadingV v) [] (by simp) a ha
      simpa [hl] using this
  have hpieces : ∀ p ∈ splitSep '.' ((splitSep '-' (stripLeadingV v)).headD []),
      ('-' : Char) ∉ p := by
    intro p hp hmem
    rcases splitSepAux_mem_subset '.' _ [] p hp '-' hmem with h | h
    · exact hbase h
    · simp at h
  have hnums : ∀ x ∈ (splitSep '.' ((splitSep '-' (stripLeadingV v)).headD [])).map
      (fun p => ((jsParseInt p).getD 0 : Int)), 0 ≤ x := by
    intro x hx
    rcases List.mem_map.1 hx with ⟨p, hp, rfl⟩
    rcases hj : jsParseInt p with _ | y
    · simp [hj]
    · simpa [hj] using jsParseInt_nonneg p (hpieces p hp) y hj
  refine ⟨fun x hx => hnums x (List.getElem?_mem hx),
          fun x hx => hnums x (List.getElem?_mem hx),
          fun x hx => hnums x (List.getElem?_mem hx)⟩

/-- `0 > c` is false in the JavaScript sense for a component that is
absent or nonnegative. -/
theorem jsGtNum_zero (c : Option Int) (hc : ∀ x, c = some x → 0 ≤ x) :
    jsGtNum (some 0) c = false := by
  cases c with
  | none => rfl
  | some y =>
    have := hc y rfl
    simp only [jsGtNum, decide_eq_false_iff_not]
    omega

/-- `compareVersions("0.0.0", v)` is negative exactly when some parsed
base component of `v` differs from `0` (is a nonzero number or an
absent position). -/
theorem compareVersionsChars_zero_neg_iff (v : Chars) :
    compareVersionsChars "0.0.0".data v < 0 ↔
      ¬ ((parseVersionChars v).major = some 0 ∧ (parseVersionChars v).minor = some 0 ∧
         (parseVersionChars v).patch = some 0) := by
  have h000 : parseVersionChars "0.0.0".data = ⟨some 0, some 0, some 0, []⟩ := by decide
  obtain ⟨hM, hm, hp⟩ := parseVersionChars_nonneg v
  simp only [compareVersionsChars, h000]
  by_cases h1 : (parseVersionChars v).major = some 0
  · by_cases h2 : (parseVersionChars v).minor = some 0
    · by_cases h3 : (parseVersionChars v).patch = some 0
      · by_cases hpre : (parseVersionChars v).prerelease.isEmpty = true
        · simp [jsNeqNum, h1, h2, h3, hpre]
        · simp [jsNeqNum, h1, h2, h3, hpre]
      · have h3s : (some 0 : Option Int) ≠ (parseVersionChars v).patch := fun hh => h3 hh.symm
        simp [jsNeqNum, jsGtNum_zero _ hp, h1, h2, h3, h3s]
    · have h2s : (some 0 : Option Int) ≠ (parseVersionChars v).minor := fun hh => h2 hh.symm
      simp [jsNeqNum, jsGtNum_zero _ hm, h1, h2, h2s]
  · have h1s : (some 0 : Option Int) ≠ (parseVersionChars v).major := fun hh => h1 hh.symm
    simp [jsNeqNum, jsGtNum_zero _ hM, h1, h1s]

/-- C7 counterexample: when the latest release is tagged `v0.0.0` (or
`0.0.0`), the fallback comparison `compareVersions("0.0.0", "0.0.0")`
returns 0 and the update-available boolean is false — not true as the
claim asserts for every tag. -/
theorem fallback_update_check_counterexample :
    (checkForUpdatesFallback "v0.0.0").hasUpdate = false := by decide

/-- C7 amended: when the installed binary's version cannot be obtained
or parsed, the current version is treated as `0.0.0`, and the
update-available boolean is true exactly when the latest tag's parsed
base version is not literally `0.0.0` — some component a nonzero number
or an absent position; a latest tag whose base parses to `0.0.0` (with
or without a pre-release suffix) reports no update. -/
theorem fallback_update_check_characterization (tagName : String) :
    (checkForUpdatesFallback tagName).currentVersion = "0.0.0" ∧
    ((checkForUpdatesFallback tagName).hasUpdate = true ↔
      ¬ ((parseVersion (checkForUpdatesFallback tagName).latestVersion).major = some 0 ∧
         (parseVersion (checkForUpdatesFallback tagName).latestVersion).minor = some 0 ∧
         (parseVersion (checkForUpdatesFallback tagName).latestVersion).patch = some 0)) := by
  refine ⟨rfl, ?_⟩
  rw [show (checkForUpdatesFallback tagName).hasUpdate =
        decide (compareVersions "0.0.0" (checkForUpdatesFallback tagName).latestVersion < 0)
      from rfl]
  rw [decide_eq_true_iff]
  exact compareVersionsChars_zero_neg_iff _

end Leafpress
